import Mathlib

/-!
Verification of the transcription session and batch processing engine of the
patient-note-taker service.

The definitions below are shallow embeddings of the TypeScript sources:

* `AudioRecordingService` (src/api/src/services/audioRecordingService.ts):
  the WAV container builder (`createSnapshot`, the finalize step of
  `stopRecording`, and the session map effect of `stopRecording`).
* `ElevenLabsBatchService` and `AWSTranscribeBatchService`
  (src/unnamed/part_004, src/unnamed/part_005): `saveTranscript`,
  `transcribeChunk` error mapping, `processChunks`, `processPartialRecording`,
  `startBatchTranscription`.
* the WebSocket session controller (src/api/src/ws/server.ts): the periodic
  batch tick of `handleBatchMode` and the connection-close handler.

Byte buffers are `List Nat` (one entry per byte), durations in seconds are
rationals, and JavaScript exceptions are `Except` / explicit error fields.
-/

/-! ## Byte-level primitives (Buffer.writeUInt16LE / writeUInt32LE) -/

/-- Little-endian 16-bit encoding of a number, as Buffer.writeUInt16LE lays it out. -/
def u16le (n : Nat) : List Nat :=
  [n % 256, n / 256 % 256]

/-- Little-endian 32-bit encoding of a number, as Buffer.writeUInt32LE lays it out. -/
def u32le (n : Nat) : List Nat :=
  [n % 256, n / 256 % 256, n / 65536 % 256, n / 16777216 % 256]

/-- Read a little-endian 16-bit field at byte offset `off`. -/
def readU16LE (bs : List Nat) (off : Nat) : Nat :=
  bs.getD off 0 + 256 * bs.getD (off + 1) 0

/-- Read a little-endian 32-bit field at byte offset `off`. -/
def readU32LE (bs : List Nat) (off : Nat) : Nat :=
  bs.getD off 0 + 256 * bs.getD (off + 1) 0 + 65536 * bs.getD (off + 2) 0
    + 16777216 * bs.getD (off + 3) 0

/--
The 44-byte WAV header both `createSnapshot` and `stopRecording` build:
RIFF tag, total size field, WAVE and fmt tags, fmt-chunk size 16, PCM format 1,
1 channel, 16000 Hz, byte rate 32000, block align 2, 16 bits per sample,
data tag, data size field.  Tag bytes are the ASCII codes of
RIFF / WAVE / fmt(space) / data.
-/
def wavHeader (totalFileSize dataSize : Nat) : List Nat :=
  [82, 73, 70, 70] ++ u32le totalFileSize
    ++ [87, 65, 86, 69]
    ++ [102, 109, 116, 32] ++ u32le 16 ++ u16le 1 ++ u16le 1
    ++ u32le 16000 ++ u32le 32000 ++ u16le 2 ++ u16le 16
    ++ [100, 97, 116, 97] ++ u32le dataSize

/-! ## AudioRecordingService.createSnapshot (audioRecordingService.ts lines 88-143)

`fileData` is the current content of the recording file: the 44-byte
placeholder header followed by the PCM data written so far. -/

/-- `createSnapshot`: returns `none` below the short-audio floor
(the source tests `fileSize < 44 + 16000`), otherwise a new file whose header
carries `totalFileSize = length - 8` and `dataSize = length - 44`. -/
def createSnapshot (fileData : List Nat) : Option (List Nat) :=
  if fileData.length < 44 + 16000 then none
  else
    let dataSize : Int := (fileData.length : Int) - 44
    if dataSize ≤ 0 then none
    else some (wavHeader (fileData.length - 8) (fileData.length - 44) ++ fileData.drop 44)

/-! ## AudioRecordingService.stopRecording, finalize step (lines 148-210) -/

/-- The header rewrite `stopRecording` performs on the recorded file once the
write stream has ended: error when no data bytes follow the placeholder
header, otherwise the real header followed by the data. -/
def stopRecordingFinalize (fileData : List Nat) : Except String (List Nat) :=
  let dataSize : Int := (fileData.length : Int) - 44
  if dataSize ≤ 0 then .error "No audio data recorded"
  else .ok (wavHeader (fileData.length - 8) (fileData.length - 44) ++ fileData.drop 44)

/-! ## Field-extraction lemmas for the WAV header -/

/-- The data-size field sits at offset 40 and decodes back to `dataSize`. -/
theorem readU32LE_wavHeader_dataSize (t d : Nat) (rest : List Nat) (hd : d < 4294967296) :
    readU32LE (wavHeader t d ++ rest) 40 = d := by
  have h : readU32LE (wavHeader t d ++ rest) 40 =
      d % 256 + 256 * (d / 256 % 256) + 65536 * (d / 65536 % 256)
        + 16777216 * (d / 16777216 % 256) := by
    norm_num [readU32LE, wavHeader, u16le, u32le, List.getD_append, List.getD]
  rw [h]; omega

/-- The RIFF total-size field sits at offset 4 and decodes back to `totalFileSize`. -/
theorem readU32LE_wavHeader_riffSize (t d : Nat) (rest : List Nat) (ht : t < 4294967296) :
    readU32LE (wavHeader t d ++ rest) 4 = t := by
  have h : readU32LE (wavHeader t d ++ rest) 4 =
      t % 256 + 256 * (t / 256 % 256) + 65536 * (t / 65536 % 256)
        + 16777216 * (t / 16777216 % 256) := by
    norm_num [readU32LE, wavHeader, u16le, u32le, List.getD_append, List.getD]
  rw [h]; omega

/-- The six fixed header fields: PCM format code 1 at offset 20, channel count
1 at offset 22, sample rate 16000 at offset 24, byte rate 32000 at offset 28,
block align 2 at offset 32 and bits per sample 16 at offset 34. -/
theorem wavHeader_fixed_fields (t d : Nat) (rest : List Nat) :
    readU16LE (wavHeader t d ++ rest) 20 = 1 ∧
    readU16LE (wavHeader t d ++ rest) 22 = 1 ∧
    readU32LE (wavHeader t d ++ rest) 24 = 16000 ∧
    readU32LE (wavHeader t d ++ rest) 28 = 32000 ∧
    readU16LE (wavHeader t d ++ rest) 32 = 2 ∧
    readU16LE (wavHeader t d ++ rest) 34 = 16 := by
  refine ⟨?_, ?_, ?_, ?_, ?_, ?_⟩ <;>
    norm_num [readU16LE, readU32LE, wavHeader, u16le, u32le, List.getD_append, List.getD]

/--
Claim C3: for every recording with `N > 0` PCM data bytes after the 44-byte
placeholder header, the `stopRecording` finalize step rewrites the header with
data-chunk size `N` (offset 40) and RIFF size `N + 36` (offset 4), with the
fixed fields PCM format 1 (offset 20), 1 channel (offset 22), 16000 Hz sample
rate (offset 24), byte rate 32000 (offset 28), block align 2 (offset 32) and
16 bits per sample (offset 34); with zero data bytes it fails with the error
"No audio data recorded".
-/
theorem stopRecording_header_correct (data : List Nat) (h0 : 0 < data.length)
    (hbound : data.length + 36 < 4294967296) :
    stopRecordingFinalize (List.replicate 44 0 ++ data)
        = .ok (wavHeader (data.length + 36) data.length ++ data) ∧
    readU32LE (wavHeader (data.length + 36) data.length ++ data) 40 = data.length ∧
    readU32LE (wavHeader (data.length + 36) data.length ++ data) 4 = data.length + 36 ∧
    readU16LE (wavHeader (data.length + 36) data.length ++ data) 20 = 1 ∧
    readU16LE (wavHeader (data.length + 36) data.length ++ data) 22 = 1 ∧
    readU32LE (wavHeader (data.length + 36) data.length ++ data) 24 = 16000 ∧
    readU32LE (wavHeader (data.length + 36) data.length ++ data) 28 = 32000 ∧
    readU16LE (wavHeader (data.length + 36) data.length ++ data) 32 = 2 ∧
    readU16LE (wavHeader (data.length + 36) data.length ++ data) 34 = 16 ∧
    stopRecordingFinalize (List.replicate 44 0) = .error "No audio data recorded" := by
  have hlen : (List.replicate 44 (0 : Nat) ++ data).length = 44 + data.length := by
    rw [List.length_append, List.length_replicate]
  have hdrop : (List.replicate 44 (0 : Nat) ++ data).drop 44 = data :=
    List.drop_left' (List.length_replicate 44 0)
  obtain ⟨f20, f22, f24, f28, f32, f34⟩ :=
    wavHeader_fixed_fields (data.length + 36) data.length data
  refine ⟨?_, readU32LE_wavHeader_dataSize _ _ _ (by omega),
    readU32LE_wavHeader_riffSize _ _ _ hbound, f20, f22, f24, f28, f32, f34, ?_⟩
  · unfold stopRecordingFinalize
    rw [hlen, hdrop]
    rw [if_neg (by omega)]
    have h1 : 44 + data.length - 8 = data.length + 36 := by omega
    have h2 : 44 + data.length - 44 = data.length := by omega
    rw [h1, h2]
  · rfl

/-- Witness for claim C3 at the concrete two-byte recording `[7, 7]`. -/
theorem stopRecording_header_correct_witness :
    stopRecordingFinalize (List.replicate 44 0 ++ [7, 7])
        = .ok (wavHeader (2 + 36) 2 ++ [7, 7]) ∧
    readU32LE (wavHeader (2 + 36) 2 ++ [7, 7]) 40 = 2 ∧
    readU32LE (wavHeader (2 + 36) 2 ++ [7, 7]) 4 = 2 + 36 ∧
    readU16LE (wavHeader (2 + 36) 2 ++ [7, 7]) 20 = 1 ∧
    readU16LE (wavHeader (2 + 36) 2 ++ [7, 7]) 22 = 1 ∧
    readU32LE (wavHeader (2 + 36) 2 ++ [7, 7]) 24 = 16000 ∧
    readU32LE (wavHeader (2 + 36) 2 ++ [7, 7]) 28 = 32000 ∧
    readU16LE (wavHeader (2 + 36) 2 ++ [7, 7]) 32 = 2 ∧
    readU16LE (wavHeader (2 + 36) 2 ++ [7, 7]) 34 = 16 ∧
    stopRecordingFinalize (List.replicate 44 0) = .error "No audio data recorded" :=
  stopRecording_header_correct [7, 7] (by decide) (by decide)

/--
Claim C2, divergence witness: the source floors `createSnapshot` at
`fileSize < 44 + 16000`, i.e. at 16000 data bytes (half a second), while the
claim, the spec, and the source comment
("At least 1 second of audio (16kHz * 2 bytes)") require the floor at
`16000 * 2 = 32000` data bytes.  With 20000 data bytes (fewer than 32000) the
code returns a snapshot file instead of `none`; the actual cut lies between
15999 and 16000 data bytes; at exactly 32000 data bytes a file is returned,
as the claim states.
-/
theorem createSnapshot_floor_at_16000_not_32000 :
    (createSnapshot (List.replicate (44 + 20000) 0)).isSome = true ∧
    createSnapshot (List.replicate (44 + 15999) 0) = none ∧
    (createSnapshot (List.replicate (44 + 16000) 0)).isSome = true ∧
    (createSnapshot (List.replicate (44 + 32000) 0)).isSome = true := by
  refine ⟨?_, ?_, ?_, ?_⟩ <;>
    · unfold createSnapshot
      rw [List.length_replicate]
      norm_num

/-! ## Consultation record and the persistence guard

`saveTranscript` (identical in ElevenLabsBatchService, part_004 lines 358-385,
and AWSTranscribeBatchService, part_005 lines 476-502) loads the consultation,
and writes the candidate only when it is strictly longer than the stored
transcript or the stored transcript is empty; the partial-status marking sits
inside that accepted branch. -/

/-- The consultation fields the transcription engine touches. -/
structure Consultation where
  transcript : String
  status : String
  totalChunks : Nat
  processedChunks : Nat
  transcriptionProgress : Nat
  lastChunkProcessed : String
  detectedLanguage : Option String
deriving DecidableEq

/-- A consultation as the WS server requires it before recording: status
in_progress, empty transcript, no progress recorded yet. -/
def initialConsultation : Consultation :=
  { transcript := "", status := "in_progress", totalChunks := 0, processedChunks := 0,
    transcriptionProgress := 0, lastChunkProcessed := "", detectedLanguage := none }

/-- `saveTranscript` of both batch services: write only when the candidate is
longer than the stored transcript or the stored one is empty; on a write with
`isPartial` also set the status to partial. -/
def saveTranscript (c : Consultation) (transcript : String) (isPartial : Bool) : Consultation :=
  let existingTranscript := c.transcript
  if transcript.length > existingTranscript.length ∨ existingTranscript.length = 0 then
    let written := { c with transcript := transcript }
    if isPartial then { written with status := "partial" } else written
  else c

/--
Claim C10: a merge rejected because the candidate is not longer than the
non-empty stored transcript leaves the consultation record entirely
unchanged; in particular the status is not set to partial on a rejected
merge.
-/
theorem saveTranscript_rejected_frame (c : Consultation) (t : String) (p : Bool)
    (hshort : ¬ t.length > c.transcript.length) (hne : c.transcript.length ≠ 0) :
    saveTranscript c t p = c := by
  unfold saveTranscript
  rw [if_neg]
  intro h
  rcases h with h | h
  · exact hshort h
  · exact hne h

/-- Witness for claim C10: candidate "x" against stored transcript "ab" with
the partial flag set; the record is untouched. -/
theorem saveTranscript_rejected_frame_witness :
    saveTranscript { initialConsultation with transcript := "ab", status := "completed" } "x" true
      = { initialConsultation with transcript := "ab", status := "completed" } :=
  saveTranscript_rejected_frame _ "x" true (by decide) (by decide)

/-! ## Claim C1: the sequence of merge calls is monotonic and keeps a longest
candidate -/

/-- A sequence of `saveTranscript` merge calls against one consultation,
applied in call order (`isPartial = false`, as the per-chunk saves use). -/
def mergeCalls (c : Consultation) : List String → Consultation
  | [] => c
  | t :: rest => mergeCalls (saveTranscript c t false) rest

/-- The stored transcript of an accepted write is the candidate, whatever the
partial flag. -/
theorem saveTranscript_written_transcript (c : Consultation) (t : String) (p : Bool) :
    ((let written := { c with transcript := t };
      if p = true then { written with status := "partial" } else written)).transcript = t := by
  cases p <;> rfl

/-- One merge call never shrinks the stored transcript. -/
theorem saveTranscript_length_mono (c : Consultation) (t : String) (p : Bool) :
    c.transcript.length ≤ (saveTranscript c t p).transcript.length := by
  unfold saveTranscript
  by_cases h : t.length > c.transcript.length ∨ c.transcript.length = 0
  · rw [if_pos h, saveTranscript_written_transcript c t p]
    rcases h with h | h
    · omega
    · omega
  · rw [if_neg h]

/-- After a merge call the stored transcript is the candidate or the old one. -/
theorem saveTranscript_transcript_cases (c : Consultation) (t : String) (p : Bool) :
    (saveTranscript c t p).transcript = t ∨ (saveTranscript c t p).transcript = c.transcript := by
  unfold saveTranscript
  by_cases h : t.length > c.transcript.length ∨ c.transcript.length = 0
  · rw [if_pos h, saveTranscript_written_transcript c t p]; left; rfl
  · rw [if_neg h]; right; rfl

/-- A call sequence never shrinks the stored transcript. -/
theorem mergeCalls_length_mono (cs : List String) (c : Consultation) :
    c.transcript.length ≤ (mergeCalls c cs).transcript.length := by
  induction cs generalizing c with
  | nil => exact le_rfl
  | cons t rest ih =>
      exact le_trans (saveTranscript_length_mono c t false) (ih (saveTranscript c t false))

/-- After a call sequence the stored transcript is the old one or one of the
candidates. -/
theorem mergeCalls_transcript_cases (cs : List String) (c : Consultation) :
    (mergeCalls c cs).transcript = c.transcript ∨ (mergeCalls c cs).transcript ∈ cs := by
  induction cs generalizing c with
  | nil => left; rfl
  | cons t rest ih =>
      rcases ih (saveTranscript c t false) with h | h
      · rcases saveTranscript_transcript_cases c t false with h2 | h2
        · right; rw [mergeCalls, h, h2]; exact List.mem_cons_self t rest
        · left; rw [mergeCalls, h, h2]
      · right; exact List.mem_cons_of_mem t h

/-- Every candidate already offered bounds the stored transcript length. -/
theorem mergeCalls_ge_candidates (cs : List String) (c : Consultation) :
    ∀ t ∈ cs, t.length ≤ (mergeCalls c cs).transcript.length := by
  induction cs generalizing c with
  | nil => intro t ht; exact absurd ht (List.not_mem_nil t)
  | cons u rest ih =>
      intro t ht
      rcases List.mem_cons.mp ht with rfl | ht
      · have hstep : t.length ≤ (saveTranscript c t false).transcript.length := by
          unfold saveTranscript
          by_cases h : t.length > c.transcript.length ∨ c.transcript.length = 0
          · rw [if_pos h, saveTranscript_written_transcript c t false]
          · rw [if_neg h]
            push_neg at h
            omega
        exact le_trans hstep (mergeCalls_length_mono rest (saveTranscript c t false))
      · exact ih (saveTranscript c u false) t ht

/-- Starting from an empty stored transcript, a non-empty call sequence leaves
one of the candidates stored. -/
theorem mergeCalls_mem_of_empty (cs : List String) (c : Consultation)
    (hc : c.transcript = "") (hne : cs ≠ []) :
    (mergeCalls c cs).transcript ∈ cs := by
  cases cs with
  | nil => exact absurd rfl hne
  | cons t rest =>
      have hfirst : (saveTranscript c t false).transcript = t := by
        unfold saveTranscript
        rw [if_pos (Or.inr (by rw [hc]; rfl)), saveTranscript_written_transcript c t false]
      rcases mergeCalls_transcript_cases rest (saveTranscript c t false) with h | h
      · rw [mergeCalls, h, hfirst]; exact List.mem_cons_self t rest
      · exact List.mem_cons_of_mem t h

/--
Claim C1: `saveTranscript` writes its candidate only when it is strictly
longer than the stored transcript or the stored one is empty, hence every
call sequence starting from the empty transcript leaves the stored transcript
length non-decreasing at each call, and after all calls the stored value is a
candidate of maximal length.
-/
theorem saveTranscript_monotone_max (cs : List String) (hne : cs ≠ []) :
    (∀ c t p, c.transcript.length ≤ (saveTranscript c t p).transcript.length) ∧
    (∀ c t p, ¬ (t.length > c.transcript.length ∨ c.transcript.length = 0) →
      saveTranscript c t p = c) ∧
    (mergeCalls initialConsultation cs).transcript ∈ cs ∧
    (∀ t ∈ cs, t.length ≤ (mergeCalls initialConsultation cs).transcript.length) := by
  refine ⟨saveTranscript_length_mono, ?_, ?_, mergeCalls_ge_candidates cs initialConsultation⟩
  · intro c t p h
    unfold saveTranscript
    rw [if_neg h]
  · exact mergeCalls_mem_of_empty cs initialConsultation rfl hne

/-- Witness for claim C1 at the call sequence `["a", "xyz", "b"]`: the stored
value ends at "xyz", a candidate of maximal length. -/
theorem saveTranscript_monotone_max_witness :
    ((∀ c t p, c.transcript.length ≤ (saveTranscript c t p).transcript.length) ∧
      (∀ c t p, ¬ (t.length > c.transcript.length ∨ c.transcript.length = 0) →
        saveTranscript c t p = c) ∧
      (mergeCalls initialConsultation ["a", "xyz", "b"]).transcript ∈ ["a", "xyz", "b"] ∧
      (∀ t ∈ ["a", "xyz", "b"],
        t.length ≤ (mergeCalls initialConsultation ["a", "xyz", "b"]).transcript.length)) ∧
    (mergeCalls initialConsultation ["a", "xyz", "b"]).transcript = "xyz" :=
  ⟨saveTranscript_monotone_max ["a", "xyz", "b"] (by decide), by decide⟩

/-! ## Adapter responses and the JavaScript error objects

`transcribeChunk` of the ElevenLabs service (part_004 lines 245-353) turns
every axios failure into a fresh `Error` whose message is listed below; the
fresh object carries no `response` field, so `responseStatus` is `none` for
every error the chunk loop can observe. -/

/-- One vendor call outcome as axios reports it to `transcribeChunk`. -/
inductive ApiResponse where
  | success (text : String)
  | httpError (status : Nat) (message : String)
  | requestError (message : String)
deriving DecidableEq

/-- A thrown JavaScript error: its message and, when present, the
`error.response.status` of an axios error. -/
structure TsError where
  message : String
  responseStatus : Option Nat
deriving DecidableEq

/-- JavaScript `s.trim()`: drop leading and trailing whitespace. -/
def jsTrim (s : String) : String :=
  String.mk (((s.data.dropWhile Char.isWhitespace).reverse.dropWhile Char.isWhitespace).reverse)

/-- Substring occurrence on character lists. -/
def listIncludes (pat : List Char) : List Char → Bool
  | [] => pat.isEmpty
  | c :: rest => pat.isPrefixOf (c :: rest) || listIncludes pat rest

/-- JavaScript `s.includes(pat)`: case-sensitive substring test. -/
def jsIncludes (s pat : String) : Bool :=
  listIncludes pat.toList s.toList

/-- The error mapping of `ElevenLabsBatchService.transcribeChunk`: a 401
becomes an authentication message, a 429 becomes the fresh error
"Quota exceeded", a 404 an endpoint message, any other HTTP status a generic
message carrying the vendor text, and a connection failure a
"Failed to transcribe chunk" message.  All are fresh `Error` objects without
a `response` field. -/
def transcribeChunkEL (r : ApiResponse) : Except TsError String :=
  match r with
  | .success t => .ok t
  | .httpError 401 msg =>
      .error { message := "ElevenLabs API authentication failed (401). Please verify your API key is correct and has speech-to-text permissions. Error: " ++ msg,
               responseStatus := none }
  | .httpError 429 _ => .error { message := "Quota exceeded", responseStatus := none }
  | .httpError 404 msg =>
      .error { message := "ElevenLabs API endpoint not found (404). The endpoint may have changed. Error: " ++ msg,
               responseStatus := none }
  | .httpError status msg =>
      .error { message := "ElevenLabs API error (" ++ toString status ++ "): " ++ msg,
               responseStatus := none }
  | .requestError msg =>
      .error { message := "Failed to transcribe chunk: " ++ msg, responseStatus := none }

/-- The quota test of the ElevenLabs chunk loop (part_004 line 185):
`error.response?.status === 429 || error.message?.includes('quota')`. -/
def isQuotaError (e : TsError) : Bool :=
  e.responseStatus == some 429 || jsIncludes e.message "quota"

/-- Outcome of one `processChunks` run: the job transcript, the final
consultation record, how many chunks the adapter was invoked on, and the
error the loop threw, if any. -/
structure ChunkRun where
  fullTranscript : String
  consultation : Consultation
  invoked : Nat
  thrown : Option String
deriving DecidableEq

/-- The chunk loop of `ElevenLabsBatchService.processChunks` (part_004 lines
126-240): sequentially transcribe each chunk; append a non-empty trimmed
result with a single separating space and persist through `saveTranscript`;
on a chunk error persist the partial transcript, mark the consultation
partial, and abort only when `isQuotaError` holds; after the loop mark the
consultation completed. -/
def processChunksELAux (cons : Consultation) (full : String) (invoked i total : Nat) :
    List ApiResponse → ChunkRun
  | [] =>
      { fullTranscript := full,
        consultation := { cons with status := "completed", processedChunks := total, transcriptionProgress := 100 },
        invoked := invoked, thrown := none }
  | r :: rest =>
      match transcribeChunkEL r with
      | .ok chunkText =>
          if chunkText ≠ "" ∧ jsTrim chunkText ≠ "" then
            let full2 := full ++ (if full ≠ "" then " " else "") ++ jsTrim chunkText
            processChunksELAux (saveTranscript cons full2 false) full2 (invoked + 1) (i + 1)
              total rest
          else
            processChunksELAux cons full (invoked + 1) (i + 1) total rest
      | .error e =>
          let cons1 := if full ≠ "" then saveTranscript cons full true else cons
          let cons2 := { cons1 with status := "partial", processedChunks := i, lastChunkProcessed := toString i }
          if isQuotaError e then
            { fullTranscript := full, consultation := cons2, invoked := invoked + 1,
              thrown := some "Quota exceeded. Partial transcript saved." }
          else
            processChunksELAux cons2 full (invoked + 1) (i + 1) total rest

/-- `ElevenLabsBatchService.processChunks` on a fresh job. -/
def processChunksEL (cons : Consultation) (responses : List ApiResponse) : ChunkRun :=
  processChunksELAux cons "" 0 0 responses.length responses

/-- One AWS Transcribe chunk outcome: a transcript with an optionally
detected language, or a thrown error. -/
inductive AwsResult where
  | ok (transcript : String) (detectedLanguage : Option String)
  | err (message : String)
deriving DecidableEq

/-- The chunk loop of `AWSTranscribeBatchService.processChunks` (part_005
lines 166-280): identical transcript handling, records the first detected
language, and has no quota branch at all, so every chunk failure continues
with the next chunk. -/
def processChunksAWSAux (cons : Consultation) (full : String) (invoked i total : Nat)
    (jobLang : Option String) : List AwsResult → ChunkRun
  | [] =>
      { fullTranscript := full,
        consultation := { cons with status := "completed", processedChunks := total, transcriptionProgress := 100 },
        invoked := invoked, thrown := none }
  | .ok t dl :: rest =>
      if t ≠ "" ∧ jsTrim t ≠ "" then
        let full2 := full ++ (if full ≠ "" then " " else "") ++ jsTrim t
        let keepLang := dl.isSome ∧ jobLang = none
        let cons1 := if keepLang then { cons with detectedLanguage := dl } else cons
        let jobLang2 := if keepLang then dl else jobLang
        processChunksAWSAux (saveTranscript cons1 full2 false) full2 (invoked + 1) (i + 1)
          total jobLang2 rest
      else
        processChunksAWSAux cons full (invoked + 1) (i + 1) total jobLang rest
  | .err _ :: rest =>
      let cons1 := if full ≠ "" then saveTranscript cons full true else cons
      let cons2 := { cons1 with status := "partial", processedChunks := i, lastChunkProcessed := toString i }
      processChunksAWSAux cons2 full (invoked + 1) (i + 1) total jobLang rest

/-- `AWSTranscribeBatchService.processChunks` on a fresh job. -/
def processChunksAWS (cons : Consultation) (results : List AwsResult) : ChunkRun :=
  processChunksAWSAux cons "" 0 0 results.length none results

/--
Claim C4, divergence witness: on chunks `[A, B, C]` where B fails with
HTTP 429, the ElevenLabs loop does NOT stop.  `transcribeChunk` rethrows the
429 as the fresh error "Quota exceeded", which carries no `response.status`
and whose message fails the case-sensitive `includes("quota")` test, so the
abort branch (announced by the source comment "If quota exceeded, stop
processing but keep what we have") is not taken: chunk C is still invoked,
nothing is thrown, and the job finishes as completed with transcript
"one three".  The quota test itself rejects the very error object the 429
produces, and the AWS loop has no quota branch at all and also invokes C.
-/
theorem processChunks_quota429_not_aborted :
    (processChunksEL initialConsultation
        [.success "one", .httpError 429 "Too Many Requests", .success "three"]).invoked = 3 ∧
    (processChunksEL initialConsultation
        [.success "one", .httpError 429 "Too Many Requests", .success "three"]).thrown = none ∧
    (processChunksEL initialConsultation
        [.success "one", .httpError 429 "Too Many Requests", .success "three"]).fullTranscript
      = "one three" ∧
    (processChunksEL initialConsultation
        [.success "one", .httpError 429 "Too Many Requests", .success "three"]).consultation.status
      = "completed" ∧
    isQuotaError { message := "Quota exceeded", responseStatus := none } = false ∧
    (processChunksAWS initialConsultation
        [.ok "one" none, .err "429 Too Many Requests", .ok "three" none]).invoked = 3 ∧
    (processChunksAWS initialConsultation
        [.ok "one" none, .err "429 Too Many Requests", .ok "three" none]).thrown = none := by
  refine ⟨?_, ?_, ?_, ?_, ?_, ?_, ?_⟩ <;> decide

/-! ## Claim C5: the transcript is the in-order space-join of the non-empty
chunk results -/

/-- Spec-side definition: the space-joined concatenation, in order, of a list
of fragments ("with a single separating space"). -/
def spaceJoin : List String → String
  | [] => ""
  | [t] => t
  | t :: u :: rest => t ++ " " ++ spaceJoin (u :: rest)

/-- What one ElevenLabs chunk contributes to the transcript: its trimmed
result when the adapter succeeded with a non-empty text, nothing otherwise. -/
def elChunkContribution (r : ApiResponse) : Option String :=
  match transcribeChunkEL r with
  | .ok t => if t ≠ "" ∧ jsTrim t ≠ "" then some (jsTrim t) else none
  | .error _ => none

/-- Whether an ElevenLabs chunk outcome makes the loop abort (the quota
branch). -/
def elAborts (r : ApiResponse) : Bool :=
  match transcribeChunkEL r with
  | .ok _ => false
  | .error e => isQuotaError e

/-- What one AWS chunk contributes to the transcript. -/
def awsChunkContribution : AwsResult → Option String
  | .ok t _ => if t ≠ "" ∧ jsTrim t ≠ "" then some (jsTrim t) else none
  | .err _ => none

/-- Joining fragments onto an already accumulated transcript. -/
def joinAcc (full : String) (l : List String) : String :=
  if full = "" then spaceJoin l else spaceJoin (full :: l)

theorem joinAcc_nil (full : String) : joinAcc full [] = full := by
  unfold joinAcc
  by_cases h : full = ""
  · rw [if_pos h, h]; rfl
  · rw [if_neg h]; rfl

/-- Appending one non-empty fragment to the accumulator commutes with the
join. -/
theorem joinAcc_append (full t : String) (l : List String) (ht : t ≠ "") :
    joinAcc (full ++ (if full ≠ "" then " " else "") ++ t) l = joinAcc full (t :: l) := by
  by_cases hf : full = ""
  · subst hf
    rw [if_neg (fun h => h rfl), String.empty_append, String.empty_append]
    unfold joinAcc
    rw [if_neg ht, if_pos rfl]
  · rw [if_pos hf]
    have hone : (" " : String).length = 1 := rfl
    have hzero : ("" : String).length = 0 := rfl
    have hne : full ++ " " ++ t ≠ "" := by
      intro h
      have h0 := congrArg String.length h
      rw [String.length_append, String.length_append, hone, hzero] at h0
      omega
    unfold joinAcc
    rw [if_neg hne, if_neg hf]
    cases l with
    | nil => rfl
    | cons u rest =>
        show (full ++ " " ++ t) ++ " " ++ spaceJoin (u :: rest)
          = full ++ " " ++ spaceJoin (t :: u :: rest)
        rw [show spaceJoin (t :: u :: rest) = t ++ " " ++ spaceJoin (u :: rest) from rfl]
        simp only [String.append_assoc]

/-- Step equation of the ElevenLabs loop: a successful chunk with non-empty
trimmed text appends it and persists. -/
theorem processChunksELAux_cons_ok (cons : Consultation) (full : String)
    (invoked i total : Nat) (r : ApiResponse) (rest : List ApiResponse) (t : String)
    (hr : transcribeChunkEL r = .ok t) (hcond : t ≠ "" ∧ jsTrim t ≠ "") :
    processChunksELAux cons full invoked i total (r :: rest)
      = processChunksELAux
          (saveTranscript cons (full ++ (if full ≠ "" then " " else "") ++ jsTrim t) false)
          (full ++ (if full ≠ "" then " " else "") ++ jsTrim t)
          (invoked + 1) (i + 1) total rest := by
  rw [processChunksELAux, hr]
  exact if_pos hcond

/-- Step equation of the ElevenLabs loop: a successful chunk with empty
trimmed text changes nothing. -/
theorem processChunksELAux_cons_empty (cons : Consultation) (full : String)
    (invoked i total : Nat) (r : ApiResponse) (rest : List ApiResponse) (t : String)
    (hr : transcribeChunkEL r = .ok t) (hcond : ¬ (t ≠ "" ∧ jsTrim t ≠ "")) :
    processChunksELAux cons full invoked i total (r :: rest)
      = processChunksELAux cons full (invoked + 1) (i + 1) total rest := by
  rw [processChunksELAux, hr]
  exact if_neg hcond

/-- Step equation of the ElevenLabs loop: a failed chunk persists the partial
transcript, marks the consultation partial, and aborts exactly when the quota
test holds. -/
theorem processChunksELAux_cons_err (cons : Consultation) (full : String)
    (invoked i total : Nat) (r : ApiResponse) (rest : List ApiResponse) (e : TsError)
    (hr : transcribeChunkEL r = .error e) :
    processChunksELAux cons full invoked i total (r :: rest)
      = (if isQuotaError e then
          { fullTranscript := full,
            consultation := { (if full ≠ "" then saveTranscript cons full true else cons) with status := "partial", processedChunks := i, lastChunkProcessed := toString i },
            invoked := invoked + 1, thrown := some "Quota exceeded. Partial transcript saved." }
        else
          processChunksELAux
            { (if full ≠ "" then saveTranscript cons full true else cons) with status := "partial", processedChunks := i, lastChunkProcessed := toString i }
            full (invoked + 1) (i + 1) total rest) := by
  rw [processChunksELAux, hr]

/-- The ElevenLabs loop invariant: the final transcript is the accumulated
one joined with every later contribution in order, provided no chunk hits the
quota branch. -/
theorem processChunksELAux_transcript (rs : List ApiResponse) :
    ∀ (cons : Consultation) (full : String) (invoked i total : Nat),
      (∀ r ∈ rs, elAborts r = false) →
      (processChunksELAux cons full invoked i total rs).fullTranscript
        = joinAcc full (rs.filterMap elChunkContribution) := by
  induction rs with
  | nil =>
      intro cons full invoked i total _
      rw [List.filterMap_nil, joinAcc_nil]
      rfl
  | cons r rest ih =>
      intro cons full invoked i total hq
      have hqr : elAborts r = false := hq r (List.mem_cons_self r rest)
      have hqrest : ∀ x ∈ rest, elAborts x = false :=
        fun x hx => hq x (List.mem_cons_of_mem r hx)
      cases hr : transcribeChunkEL r with
      | ok t =>
          by_cases hcond : t ≠ "" ∧ jsTrim t ≠ ""
          · have hcontrib : elChunkContribution r = some (jsTrim t) := by
              unfold elChunkContribution
              rw [hr]
              exact if_pos hcond
            rw [List.filterMap_cons, hcontrib,
              processChunksELAux_cons_ok cons full invoked i total r rest t hr hcond,
              ih _ _ _ _ _ hqrest, joinAcc_append full (jsTrim t) _ hcond.2]
          · have hcontrib : elChunkContribution r = none := by
              unfold elChunkContribution
              rw [hr]
              exact if_neg hcond
            rw [List.filterMap_cons, hcontrib,
              processChunksELAux_cons_empty cons full invoked i total r rest t hr hcond]
            exact ih _ _ _ _ _ hqrest
      | error e =>
          have hqe : isQuotaError e = false := by
            unfold elAborts at hqr
            rw [hr] at hqr
            exact hqr
          have hcontrib : elChunkContribution r = none := by
            unfold elChunkContribution
            rw [hr]
          rw [List.filterMap_cons, hcontrib,
            processChunksELAux_cons_err cons full invoked i total r rest e hr, hqe,
            if_neg Bool.false_ne_true]
          exact ih _ _ _ _ _ hqrest

/-- Step equation of the AWS loop: a successful chunk with non-empty trimmed
text appends it, keeps the first detected language, and persists. -/
theorem processChunksAWSAux_cons_ok (cons : Consultation) (full : String)
    (invoked i total : Nat) (jobLang : Option String) (t : String) (dl : Option String)
    (rest : List AwsResult) (hcond : t ≠ "" ∧ jsTrim t ≠ "") :
    processChunksAWSAux cons full invoked i total jobLang (.ok t dl :: rest)
      = processChunksAWSAux
          (saveTranscript
            (if dl.isSome ∧ jobLang = none then { cons with detectedLanguage := dl } else cons)
            (full ++ (if full ≠ "" then " " else "") ++ jsTrim t) false)
          (full ++ (if full ≠ "" then " " else "") ++ jsTrim t)
          (invoked + 1) (i + 1) total
          (if dl.isSome ∧ jobLang = none then dl else jobLang) rest := by
  rw [processChunksAWSAux]
  exact if_pos hcond

/-- Step equation of the AWS loop: a successful chunk with empty trimmed text
changes nothing. -/
theorem processChunksAWSAux_cons_empty (cons : Consultation) (full : String)
    (invoked i total : Nat) (jobLang : Option String) (t : String) (dl : Option String)
    (rest : List AwsResult) (hcond : ¬ (t ≠ "" ∧ jsTrim t ≠ "")) :
    processChunksAWSAux cons full invoked i total jobLang (.ok t dl :: rest)
      = processChunksAWSAux cons full (invoked + 1) (i + 1) total jobLang rest := by
  rw [processChunksAWSAux]
  exact if_neg hcond

/-- Step equation of the AWS loop: a failed chunk persists the partial
transcript, marks the consultation partial, and always continues. -/
theorem processChunksAWSAux_cons_err (cons : Consultation) (full : String)
    (invoked i total : Nat) (jobLang : Option String) (msg : String)
    (rest : List AwsResult) :
    processChunksAWSAux cons full invoked i total jobLang (.err msg :: rest)
      = processChunksAWSAux
          { (if full ≠ "" then saveTranscript cons full true else cons) with status := "partial", processedChunks := i, lastChunkProcessed := toString i }
          full (invoked + 1) (i + 1) total jobLang rest := by
  rw [processChunksAWSAux]

/-- The AWS loop invariant: the final transcript joins every contribution in
order; no hypothesis is needed because no failure aborts this loop. -/
theorem processChunksAWSAux_transcript (rs : List AwsResult) :
    ∀ (cons : Consultation) (full : String) (invoked i total : Nat) (jobLang : Option String),
      (processChunksAWSAux cons full invoked i total jobLang rs).fullTranscript
        = joinAcc full (rs.filterMap awsChunkContribution) := by
  induction rs with
  | nil =>
      intro cons full invoked i total jobLang
      rw [List.filterMap_nil, joinAcc_nil]
      rfl
  | cons r rest ih =>
      intro cons full invoked i total jobLang
      cases r with
      | ok t dl =>
          by_cases hcond : t ≠ "" ∧ jsTrim t ≠ ""
          · have hcontrib : awsChunkContribution (.ok t dl) = some (jsTrim t) := by
              unfold awsChunkContribution
              exact if_pos hcond
            rw [List.filterMap_cons, hcontrib,
              processChunksAWSAux_cons_ok cons full invoked i total jobLang t dl rest hcond,
              ih _ _ _ _ _ _, joinAcc_append full (jsTrim t) _ hcond.2]
          · have hcontrib : awsChunkContribution (.ok t dl) = none := by
              unfold awsChunkContribution
              exact if_neg hcond
            rw [List.filterMap_cons, hcontrib,
              processChunksAWSAux_cons_empty cons full invoked i total jobLang t dl rest hcond]
            exact ih _ _ _ _ _ _
      | err msg =>
          have hcontrib : awsChunkContribution (.err msg) = none := rfl
          rw [List.filterMap_cons, hcontrib,
            processChunksAWSAux_cons_err cons full invoked i total jobLang msg rest]
          exact ih _ _ _ _ _ _

/--
Claim C5: in both batch services the chunk loop is a sequential in-order
fold, and the resulting transcript is exactly the space-joined concatenation
of every chunk's non-empty trimmed result, in chunk order; an empty or failed
chunk contributes nothing and (absent the ElevenLabs quota branch, settled in
claim C4) does not block later chunks.
-/
theorem processChunks_spaceJoin (cons cons2 : Consultation) (rs : List ApiResponse)
    (aws : List AwsResult) (hq : ∀ r ∈ rs, elAborts r = false) :
    (processChunksEL cons rs).fullTranscript
        = spaceJoin (rs.filterMap elChunkContribution) ∧
    (processChunksAWS cons2 aws).fullTranscript
        = spaceJoin (aws.filterMap awsChunkContribution) := by
  constructor
  · rw [processChunksEL, processChunksELAux_transcript rs cons "" 0 0 rs.length hq]
    unfold joinAcc
    rw [if_pos rfl]
  · rw [processChunksAWS, processChunksAWSAux_transcript aws cons2 "" 0 0 aws.length none]
    unfold joinAcc
    rw [if_pos rfl]

/-- Witness for claim C5 at chunks returning "one", "", "three": both loops
yield exactly "one three". -/
theorem processChunks_spaceJoin_witness :
    ((processChunksEL initialConsultation
        [.success "one", .success "", .success "three"]).fullTranscript
      = spaceJoin ([ApiResponse.success "one", .success "", .success "three"].filterMap
          elChunkContribution) ∧
    (processChunksAWS initialConsultation
        [.ok "one" none, .ok "" none, .ok "three" none]).fullTranscript
      = spaceJoin ([AwsResult.ok "one" none, .ok "" none, .ok "three" none].filterMap
          awsChunkContribution)) ∧
    (processChunksEL initialConsultation
        [.success "one", .success "", .success "three"]).fullTranscript = "one three" ∧
    (processChunksAWS initialConsultation
        [.ok "one" none, .ok "" none, .ok "three" none]).fullTranscript = "one three" :=
  ⟨processChunks_spaceJoin initialConsultation initialConsultation
      [.success "one", .success "", .success "three"]
      [.ok "one" none, .ok "" none, .ok "three" none] (by decide),
    by decide, by decide⟩

/-! ## Claim C7: startBatchTranscription and its cleanup call

`startBatchTranscription` (part_004 lines 39-113, part_005 lines 79-153)
normalizes, chunks, runs `processChunks` and then calls `cleanup` — all
inside the `try`; the `catch` saves the partial transcript, marks the
consultation partial and rethrows without calling `cleanup`.  `cleanupRan`
records whether the call site of `cleanup` (which deletes the normalized file
and the chunk files) was reached. -/

/-- Outcome of one `startBatchTranscription` call. -/
structure BatchStartResult where
  cleanupRan : Bool
  thrown : Option String
  consultation : Consultation
  jobTranscript : String
deriving DecidableEq

/-- Steps 5-6 of `startBatchTranscription` and its catch block, shared by
both services: on a clean chunk run reach `cleanup`; on a thrown error save
the partial transcript, mark partial, rethrow — without cleanup. -/
def afterChunks (run : ChunkRun) : BatchStartResult :=
  match run.thrown with
  | none =>
      { cleanupRan := true, thrown := none, consultation := run.consultation,
        jobTranscript := run.fullTranscript }
  | some e =>
      { cleanupRan := false, thrown := some e,
        consultation := { (if run.fullTranscript ≠ "" then saveTranscript run.consultation run.fullTranscript true else run.consultation) with status := "partial" },
        jobTranscript := run.fullTranscript }

/-- `ElevenLabsBatchService.startBatchTranscription`: `normalizeResult` is
the outcome of the normalize step, `rs` the adapter outcome per created
chunk. -/
def startBatchTranscriptionEL (cons : Consultation) (normalizeResult : Except String Unit)
    (rs : List ApiResponse) : BatchStartResult :=
  match normalizeResult with
  | .error e =>
      { cleanupRan := false, thrown := some e,
        consultation := { cons with status := "partial" }, jobTranscript := "" }
  | .ok _ =>
      if rs.length = 0 then
        { cleanupRan := false, thrown := some "No audio chunks created",
          consultation := { cons with status := "partial" }, jobTranscript := "" }
      else
        afterChunks (processChunksEL { cons with status := "processing", totalChunks := rs.length, processedChunks := 0, transcriptionProgress := 0 } rs)

/-- `AWSTranscribeBatchService.startBatchTranscription`, same control flow. -/
def startBatchTranscriptionAWS (cons : Consultation) (normalizeResult : Except String Unit)
    (results : List AwsResult) : BatchStartResult :=
  match normalizeResult with
  | .error e =>
      { cleanupRan := false, thrown := some e,
        consultation := { cons with status := "partial" }, jobTranscript := "" }
  | .ok _ =>
      if results.length = 0 then
        { cleanupRan := false, thrown := some "No audio chunks created",
          consultation := { cons with status := "partial" }, jobTranscript := "" }
      else
        afterChunks (processChunksAWS { cons with status := "processing", totalChunks := results.length, processedChunks := 0, transcriptionProgress := 0 } results)

/-- Cleanup is reached exactly when the chunk run threw nothing. -/
theorem afterChunks_cleanup_iff (run : ChunkRun) :
    (afterChunks run).cleanupRan = true ↔ (afterChunks run).thrown = none := by
  obtain ⟨ft, c, inv, th⟩ := run
  cases th <;> simp [afterChunks]

/--
Claim C7, divergence witness: the cleanup step is NOT executed on every exit
path.  With a successful normalize and a single chunk whose vendor error
message contains the lowercase word "quota" (so the quota branch fires and
`processChunks` throws), `startBatchTranscription` rethrows without reaching
`cleanup`; likewise when the normalize step itself fails.  `cleanup` sits
inside the `try` after `processChunks`, not in a finalizer.
-/
theorem startBatchTranscription_cleanup_skipped :
    (startBatchTranscriptionEL initialConsultation (.ok ())
        [.httpError 500 "quota exhausted"]).cleanupRan = false ∧
    (startBatchTranscriptionEL initialConsultation (.ok ())
        [.httpError 500 "quota exhausted"]).thrown
      = some "Quota exceeded. Partial transcript saved." ∧
    (startBatchTranscriptionAWS initialConsultation (.error "ffmpeg failed")
        []).cleanupRan = false ∧
    (startBatchTranscriptionAWS initialConsultation (.error "ffmpeg failed")
        []).thrown = some "ffmpeg failed" := by
  refine ⟨?_, ?_, ?_, ?_⟩ <;> decide

/--
Claim C7 as amended: in both batch services the cleanup that deletes the
normalized audio file and the chunk intermediate files runs exactly on the
success path — when normalize succeeded, at least one chunk was created, and
`processChunks` returned without throwing; every error exit skips it.
-/
theorem startBatchTranscription_cleanup_iff_no_throw (cons cons2 : Consultation)
    (nr nr2 : Except String Unit) (rs : List ApiResponse) (results : List AwsResult) :
    ((startBatchTranscriptionEL cons nr rs).cleanupRan = true
      ↔ (startBatchTranscriptionEL cons nr rs).thrown = none) ∧
    ((startBatchTranscriptionAWS cons2 nr2 results).cleanupRan = true
      ↔ (startBatchTranscriptionAWS cons2 nr2 results).thrown = none) := by
  constructor
  · cases nr with
    | error e => simp [startBatchTranscriptionEL]
    | ok u =>
        by_cases h : rs.length = 0
        · simp [startBatchTranscriptionEL, h]
        · simp only [startBatchTranscriptionEL, if_neg h]
          exact afterChunks_cleanup_iff _
  · cases nr2 with
    | error e => simp [startBatchTranscriptionAWS]
    | ok u =>
        by_cases h : results.length = 0
        · simp [startBatchTranscriptionAWS, h]
        · simp only [startBatchTranscriptionAWS, if_neg h]
          exact afterChunks_cleanup_iff _

/-! ## Claim C6: the periodic tick and the processed-duration watermark

`processPartialRecording` of the ElevenLabs service (part_004 lines 423-555):
when audio was already processed (`startTimeSeconds > 0`) it extracts the
tail; a tail shorter than the one-second floor is skipped with a plain
`return` — a normal, non-throwing completion; the same holds for a too-short
normalized segment and for an empty chunk list.  Per-chunk errors inside the
partial loop are swallowed.

The periodic tick of `handleBatchMode` (ws/server.ts lines 134-243) fires
every 30 seconds: when at least 30 seconds are unprocessed and a snapshot
exists, it runs `processPartialRecording` from the watermark
`session.processedDuration` and then advances the watermark to the elapsed
duration `d` captured at the start of the tick; a thrown error whose message
speaks of too-short audio also advances the watermark; any other thrown
error leaves it unchanged. -/

/-- The per-chunk loop of `processPartialRecording` (errors swallowed,
non-empty trimmed results appended and persisted). -/
def partialChunkLoopEL : Consultation → String → List ApiResponse → Consultation × String
  | cons, full, [] => (cons, full)
  | cons, full, r :: rest =>
      match transcribeChunkEL r with
      | .ok t =>
          if t ≠ "" ∧ jsTrim t ≠ "" then
            partialChunkLoopEL
              (saveTranscript cons (full ++ (if full ≠ "" then " " else "") ++ jsTrim t) false)
              (full ++ (if full ≠ "" then " " else "") ++ jsTrim t) rest
          else partialChunkLoopEL cons full rest
      | .error _ => partialChunkLoopEL cons full rest

/-- `ElevenLabsBatchService.processPartialRecording`: `segDur` is the
duration of the extracted tail, `normDur` of its normalized form, `rs` the
adapter outcome per chunk of the tail, `full` the job transcript so far. -/
def processPartialRecordingEL (cons : Consultation) (startTimeSeconds segDur normDur : ℚ)
    (rs : List ApiResponse) (full : String) : Except TsError (Consultation × String) :=
  if 0 < startTimeSeconds ∧ segDur < 1 then .ok (cons, full)
  else if normDur < 1 then .ok (cons, full)
  else if rs.length = 0 then .ok (cons, full)
  else .ok (partialChunkLoopEL cons full rs)

/-- The watermark update of one periodic tick: `p` is the current
`processedDuration`, `d` the elapsed duration captured at the start of the
tick. -/
def tickNewWatermark (p d : ℚ) (snapshotAvailable : Bool)
    (partialResult : Except TsError (Consultation × String)) : ℚ :=
  if 30 ≤ d - p then
    if snapshotAvailable then
      match partialResult with
      | .ok _ => d
      | .error e =>
          if jsIncludes e.message "too small" || jsIncludes e.message "Minimum audio duration"
          then d else p
    else p
  else p

/--
Claim C6: when the extracted tail is shorter than the one-second floor,
`processPartialRecording` skips transcription with a normal return (job
transcript unchanged), and the tick still advances the watermark to the
elapsed duration `d` it covers, so the next tick extracts from exactly `d`;
moreover the watermark never decreases under any tick outcome.
-/
theorem tick_advances_watermark_on_short_skip (cons : Consultation)
    (p d segDur normDur : ℚ) (rs : List ApiResponse) (full : String)
    (h30 : 30 ≤ d - p) (hp : 0 < p) (hshort : segDur < 1) :
    processPartialRecordingEL cons p segDur normDur rs full = .ok (cons, full) ∧
    tickNewWatermark p d true (processPartialRecordingEL cons p segDur normDur rs full) = d ∧
    (∀ (q e : ℚ) (b : Bool) (res : Except TsError (Consultation × String)),
      q ≤ tickNewWatermark q e b res) := by
  have hskip : processPartialRecordingEL cons p segDur normDur rs full = .ok (cons, full) := by
    unfold processPartialRecordingEL
    rw [if_pos ⟨hp, hshort⟩]
  refine ⟨hskip, ?_, ?_⟩
  · rw [hskip]
    unfold tickNewWatermark
    rw [if_pos h30]
    rfl
  · intro q e b res
    unfold tickNewWatermark
    by_cases h : 30 ≤ e - q
    · rw [if_pos h]
      have hq : q ≤ e := by linarith
      cases b with
      | false => simp
      | true =>
          cases res with
          | ok x => simpa using hq
          | error err =>
              by_cases hmsg : (jsIncludes err.message "too small"
                  || jsIncludes err.message "Minimum audio duration") = true
              · simp [hmsg, hq]
              · simp at hmsg
                simp [hmsg]
    · rw [if_neg h]

/-- Witness for claim C6: watermark 31 s, tick at 61 s elapsed, extracted
tail of half a second; the tick skips transcription yet moves the watermark
to 61. -/
theorem tick_advances_watermark_on_short_skip_witness :
    processPartialRecordingEL initialConsultation 31 (1/2) 5 [] "" = .ok (initialConsultation, "") ∧
    tickNewWatermark 31 61 true
        (processPartialRecordingEL initialConsultation 31 (1/2) 5 [] "") = 61 ∧
    (∀ (q e : ℚ) (b : Bool) (res : Except TsError (Consultation × String)),
      q ≤ tickNewWatermark q e b res) :=
  tick_advances_watermark_on_short_skip initialConsultation 31 61 (1/2) 5 [] ""
    (by norm_num) (by norm_num) (by norm_num)

/-! ## Claim C8: the connection-close handler for batch sessions

`stopRecording` (audioRecordingService.ts lines 148-210) deletes the session
from the map before resolving; the close handler (ws/server.ts lines 292-353)
then calls `getSession` and runs `processPartialRecording` only when a
session with `processedDuration > 0` is still there, and finally always
starts `startBatchTranscription`.  On a `stopRecording` error it cancels the
recording instead. -/

/-- The per-session recording state the close handler consults:
`processedDuration` is the watermark, `dataBytes` the PCM bytes recorded
after the placeholder header. -/
structure RecSession where
  processedDuration : ℚ
  dataBytes : Nat
deriving DecidableEq

/-- `sessions.get(consultationId)` on the session map. -/
def getSession : List (String × RecSession) → String → Option RecSession
  | [], _ => none
  | (k, s) :: rest, cid => if k = cid then some s else getSession rest cid

/-- `sessions.delete(consultationId)` on the session map. -/
def removeSession : List (String × RecSession) → String → List (String × RecSession)
  | [], _ => []
  | (k, s) :: rest, cid =>
      if k = cid then removeSession rest cid else (k, s) :: removeSession rest cid

/-- The session-map effect of `stopRecording`: error without a session or
without data bytes (session kept in the error case), otherwise the session is
deleted before the promise resolves. -/
def stopRecordingSessions (sessions : List (String × RecSession)) (cid : String) :
    Except String (List (String × RecSession)) :=
  match getSession sessions cid with
  | none => .error ("No active recording session for consultation " ++ cid)
  | some s =>
      if s.dataBytes = 0 then .error "No audio data recorded"
      else .ok (removeSession sessions cid)

/-- What the batch branch of the close handler does. -/
structure CloseOutcome where
  partialPassInvoked : Bool
  partialPassStart : Option ℚ
  batchPipelineInvoked : Bool
  recordingCancelled : Bool
deriving DecidableEq

/-- The batch branch of the `ws.on(close)` handler: stop the recording; on
success run the final incremental pass only when `getSession` still returns a
session whose `processedDuration` is positive, then start the batch
pipeline; on a stop error cancel the recording. -/
def closeAfterStop (sessions2 : List (String × RecSession)) (cid : String) : CloseOutcome :=
  match getSession sessions2 cid with
  | some session =>
      if 0 < session.processedDuration then
        { partialPassInvoked := true, partialPassStart := some session.processedDuration,
          batchPipelineInvoked := true, recordingCancelled := false }
      else
        { partialPassInvoked := false, partialPassStart := none,
          batchPipelineInvoked := true, recordingCancelled := false }
  | none =>
      { partialPassInvoked := false, partialPassStart := none,
        batchPipelineInvoked := true, recordingCancelled := false }

def wsCloseBatch (sessions : List (String × RecSession)) (cid : String) : CloseOutcome :=
  match stopRecordingSessions sessions cid with
  | .error _ =>
      { partialPassInvoked := false, partialPassStart := none,
        batchPipelineInvoked := false, recordingCancelled := true }
  | .ok sessions2 => closeAfterStop sessions2 cid

/-- Deleting a key removes every binding `getSession` could find for it. -/
theorem getSession_removeSession (sessions : List (String × RecSession)) (cid : String) :
    getSession (removeSession sessions cid) cid = none := by
  induction sessions with
  | nil => rfl
  | cons p rest ih =>
      obtain ⟨k, s⟩ := p
      by_cases h : k = cid
      · rw [removeSession, if_pos h]
        exact ih
      · rw [removeSession, if_neg h, getSession, if_neg h]
        exact ih

/-- A successful `stopRecording` leaves exactly the map with the session
deleted. -/
theorem stopRecordingSessions_ok_eq (sessions : List (String × RecSession)) (cid : String)
    (sessions2 : List (String × RecSession))
    (h : stopRecordingSessions sessions cid = .ok sessions2) :
    sessions2 = removeSession sessions cid := by
  unfold stopRecordingSessions at h
  cases hg : getSession sessions cid with
  | none => rw [hg] at h; exact absurd h (by simp)
  | some s =>
      rw [hg] at h
      have h2 : (if s.dataBytes = 0 then
            (Except.error "No audio data recorded" : Except String (List (String × RecSession)))
          else .ok (removeSession sessions cid)) = .ok sessions2 := h
      by_cases hd : s.dataBytes = 0
      · rw [if_pos hd] at h2; exact absurd h2 (by simp)
      · rw [if_neg hd] at h2
        have := Except.ok.inj h2
        exact this.symm

/--
Claim C8, divergence witness: the final incremental pass of the close handler
is dead code.  `stopRecording` deletes the session entry before resolving, so
the subsequent `getSession` always returns `none` and
`processPartialRecording` is never invoked on close — for every session map
and every consultation id; the full batch pipeline is still started whenever
`stopRecording` succeeds.  The second conjunct evaluates the handler on a
session with watermark 35 s and 1000 recorded bytes.
-/
theorem wsCloseBatch_partial_pass_dead :
    (∀ (sessions : List (String × RecSession)) (cid : String),
      (wsCloseBatch sessions cid).partialPassInvoked = false ∧
      (wsCloseBatch sessions cid).partialPassStart = none) ∧
    wsCloseBatch [("c1", { processedDuration := 35, dataBytes := 1000 })] "c1"
      = { partialPassInvoked := false, partialPassStart := none,
          batchPipelineInvoked := true, recordingCancelled := false } := by
  constructor
  · intro sessions cid
    unfold wsCloseBatch
    cases hstop : stopRecordingSessions sessions cid with
    | error e => exact ⟨rfl, rfl⟩
    | ok sessions2 =>
        show (closeAfterStop sessions2 cid).partialPassInvoked = false ∧
          (closeAfterStop sessions2 cid).partialPassStart = none
        have h2 : closeAfterStop sessions2 cid
            = { partialPassInvoked := false, partialPassStart := none,
                batchPipelineInvoked := true, recordingCancelled := false } := by
          unfold closeAfterStop
          rw [stopRecordingSessions_ok_eq sessions cid sessions2 hstop,
            getSession_removeSession]
        rw [h2]
        exact ⟨rfl, rfl⟩
  · rfl

/-! ## Claim C9: interleaving of periodic ticks of one session

The periodic callback of `handleBatchMode` is asynchronous: between reading
`session.processedDuration` at its start and writing it back at its end it
suspends at every await, and the 30-second timer fires again regardless.
`fireStep` is the decision taken at a firing: the callback begins processing
(capturing the elapsed duration `d`) exactly when at least 30 unprocessed
seconds have accumulated and a snapshot is available — the state it consults
contains no flag about a still-running callback.  `finishStep` is the write
performed when a callback finishes.  `inFlight` lists the captured elapsed
durations of the callbacks that have begun and not yet finished. -/

/-- The observable state of one batch session's periodic machinery. -/
structure SessionTickState where
  watermark : ℚ
  inFlight : List ℚ
deriving DecidableEq

/-- A timer firing at elapsed duration `d`: begin a tick iff 30 unprocessed
seconds have accumulated and a snapshot exists; nothing else is consulted. -/
def fireStep (s : SessionTickState) (d : ℚ) (snapshotAvailable : Bool) : SessionTickState :=
  if 30 ≤ d - s.watermark then
    if snapshotAvailable then { s with inFlight := d :: s.inFlight } else s
  else s

/-- A tick that began with captured elapsed duration `d` finishes: it writes
the watermark and leaves the in-flight set. -/
def finishStep (s : SessionTickState) (d : ℚ) : SessionTickState :=
  { watermark := d, inFlight := s.inFlight.erase d }

/--
Claim C9, divergence witness: two periodic ticks of the same session CAN run
concurrently.  From watermark 0 with no tick running, the timer fires at 30 s
elapsed and the tick begins; while it is still in flight (no `finishStep`
has run, hence the watermark is still 0), the timer fires again at 60 s and —
the guard `30 ≤ d - watermark` being satisfied and no lock being consulted —
a second tick begins: two ticks are in flight at once, against the claimed
skip of a new tick while the previous one is unfinished.
-/
theorem fireStep_two_ticks_in_flight :
    (fireStep (fireStep { watermark := 0, inFlight := [] } 30 true) 60 true).inFlight
      = [60, 30] := by
  unfold fireStep
  norm_num

/--
Claim C9 as amended: a new periodic tick is skipped only when fewer than 30
seconds of audio have accumulated past the watermark or no snapshot is
available; the guard never consults the in-flight ticks, so whenever at
least 30 unprocessed seconds have accumulated and a snapshot exists, a new
tick starts even while a previous tick is still running.
-/
theorem fireStep_ignores_running_tick (s : SessionTickState) (d : ℚ)
    (_hbusy : s.inFlight ≠ []) (h30 : 30 ≤ d - s.watermark) :
    (fireStep s d true).inFlight = d :: s.inFlight ∧
    (fireStep s d true).inFlight.length = s.inFlight.length + 1 ∧
    (∀ (d2 : ℚ) (b : Bool), ¬ 30 ≤ d2 - s.watermark → fireStep s d2 b = s) := by
  refine ⟨?_, ?_, ?_⟩
  · unfold fireStep
    rw [if_pos h30]
    rfl
  · unfold fireStep
    rw [if_pos h30]
    rfl
  · intro d2 b h
    unfold fireStep
    rw [if_neg h]

/-- Witness for the amended claim C9: watermark 0, one tick (captured at
30 s) still in flight, timer fires at 60 s: a second tick starts. -/
theorem fireStep_ignores_running_tick_witness :
    (fireStep { watermark := 0, inFlight := [30] } 60 true).inFlight = 60 :: [30] ∧
    (fireStep { watermark := 0, inFlight := [30] } 60 true).inFlight.length
      = ([30] : List ℚ).length + 1 ∧
    (∀ (d2 : ℚ) (b : Bool), ¬ 30 ≤ d2 - (0 : ℚ) →
      fireStep { watermark := 0, inFlight := [30] } d2 b
        = { watermark := 0, inFlight := [30] }) :=
  fireStep_ignores_running_tick { watermark := 0, inFlight := [30] } 60
    (by norm_num) (by norm_num)
